import Mathlib

/-!
# Verification of the React-Todo-App synchronization flow

Shallow embedding of the todo application's data-synchronization handlers
(`src/App.jsx`, `src/components/TodoItem.jsx`, and the Dashboard variant)
as pure Lean functions. Each React handler is transcribed as a function
producing the ordered list of effects it performs: state-setter calls
(`setTodos`, `setLoading`, `setError`, `setNewTodo`) and remote-store
requests. The remote store's responses are parameters (the handlers are
deterministic given the responses), and the final component state is
obtained by folding the setter events over the previous state.
-/

/-- A row of the `todos` table. `user_id` is present on rows in the
Dashboard deployment variant; the `App.jsx` variant never reads it. -/
structure Todo where
  id : Nat
  title : String
  is_done : Bool
  created_at : Nat
  user_id : Nat
deriving DecidableEq, Repr

/-- The partial record sent by an `update` request: `{ is_done: b }`
for toggles, `{ title: t }` for renames. -/
inductive Patch where
  | isDone (b : Bool)
  | newTitle (t : String)
deriving DecidableEq, Repr

/-- One remote-store request, with its `.eq` filters recorded as
field-name/value pairs (ids and user ids are numeric in the model). -/
inductive RemoteCall where
  | listCall (filters : List (String × Nat)) (orderByCreatedAtDesc : Bool)
  | insertCall (titleSent : String) (isDoneSent : Bool) (userIdSent : Option Nat)
  | updateCall (patch : Patch) (filters : List (String × Nat))
  | deleteCall (filters : List (String × Nat))
deriving DecidableEq, Repr

/-- One effect performed by a handler, in program order. -/
inductive Event where
  | setLoading (b : Bool)
  | setError (e : Option String)
  | setTodos (ts : List Todo)
  | setNewTodo (t : String)
  | remote (c : RemoteCall)
deriving DecidableEq, Repr

/-- The component state of `App` / `Dashboard`:
`useState` hooks `todos`, `loading`, `error`, `newTodo`. -/
structure AppState where
  todos : List Todo
  loading : Bool
  error : Option String
  newTodo : String
deriving DecidableEq, Repr

/-- Apply a single setter event to the state; remote requests do not
touch local state by themselves. -/
def applyEvent (s : AppState) : Event → AppState
  | .setLoading b => { s with loading := b }
  | .setError e => { s with error := e }
  | .setTodos ts => { s with todos := ts }
  | .setNewTodo t => { s with newTodo := t }
  | .remote _ => s

/-- Fold a handler's event trace over the previous component state. -/
def runEvents (s : AppState) (es : List Event) : AppState :=
  es.foldl applyEvent s

/-- The remote requests issued during a trace, in order. -/
def callsOf (es : List Event) : List RemoteCall :=
  es.filterMap fun e => match e with | .remote c => some c | _ => none

/-- The successive values assigned to the `todos` state during a trace. -/
def todosWrites (es : List Event) : List (List Todo) :=
  es.filterMap fun e => match e with | .setTodos ts => some ts | _ => none

/-- Response of a `select` request: `{ data, error }` where `data` may be
absent (the code guards with `data || []`). -/
abbrev FetchResult := Except String (Option (List Todo))

/-- Response of an `insert ... select()` request: the inserted rows. -/
abbrev InsertResult := Except String (List Todo)

/-- Response of an `update`/`delete` request: success or an error message. -/
abbrev MutResult := Except String Unit

/-- Model of JS `String.prototype.trim()`: strip whitespace characters
from both ends of the string. -/
def jsTrim (s : String) : String :=
  String.mk ((s.data.dropWhile Char.isWhitespace).reverse.dropWhile
    Char.isWhitespace).reverse

/-- The JS value read by `data[0]` when the returned array is empty
(`undefined`), as a sentinel record; claim C9 shows it is never produced
when the insert response contains at least one row. -/
def undefinedTodo : Todo :=
  { id := 0, title := "", is_done := false, created_at := 0, user_id := 0 }

namespace App

/-- Function `fetchTodos` of `src/App.jsx` (lines 32-53): set loading, clear the
error, issue the unfiltered ordered select; on success replace the whole
collection with `data || []`, on failure record the error; the `finally`
block always clears the loading flag last. -/
def fetchTodos (r : FetchResult) : List Event :=
  [.setLoading true, .setError none, .remote (.listCall [] true)] ++
  (match r with
   | .ok data => [.setTodos (data.getD [])]
   | .error msg => [.setError (some msg)]) ++
  [.setLoading false]

/-- Function `handleAddTodo` of `src/App.jsx` (lines 59-85): return immediately if
the trimmed input is empty; otherwise clear the error, insert
`{ title: newTodo.trim(), is_done: false }`; on success prepend `data[0]`
to the collection and clear the input, on failure record the error. -/
def handleAddTodo (newTodo : String) (todos : List Todo) (r : InsertResult) :
    List Event :=
  if jsTrim newTodo = "" then []
  else
    [.setError none, .remote (.insertCall (jsTrim newTodo) false none)] ++
    match r with
    | .ok data => [.setTodos (data.headD undefinedTodo :: todos), .setNewTodo ""]
    | .error msg => [.setError (some msg)]

/-- Function `handleToggleTodo` of `src/App.jsx` (lines 91-117): look up the record
by id (no-op when absent); issue the update flipping `is_done` filtered by
id; on success apply the flip to the local collection, on failure record
the error and refetch. -/
def handleToggleTodo (todos : List Todo) (id : Nat) (r : MutResult)
    (rf : FetchResult) : List Event :=
  match todos.find? (fun t => t.id == id) with
  | none => []
  | some todo =>
    .remote (.updateCall (.isDone (!todo.is_done)) [("id", id)]) ::
    match r with
    | .ok _ =>
      [.setTodos (todos.map fun t =>
        if t.id = id then { t with is_done := !t.is_done } else t)]
    | .error msg => .setError (some msg) :: fetchTodos rf

/-- Function `handleDeleteTodo` of `src/App.jsx` (lines 123-141): issue the delete
filtered by id; on success drop the record from the local collection, on
failure record the error and refetch. -/
def handleDeleteTodo (todos : List Todo) (id : Nat) (r : MutResult)
    (rf : FetchResult) : List Event :=
  .remote (.deleteCall [("id", id)]) ::
  match r with
  | .ok _ => [.setTodos (todos.filter fun t => !(t.id == id))]
  | .error msg => .setError (some msg) :: fetchTodos rf

/-- Function `handleUpdateTodo` of `src/App.jsx` (lines 147-167): issue the update
`{ title: newTitle }` filtered by id (the title is sent exactly as given,
no trimming here); on success replace the title in the local collection,
on failure record the error and refetch. -/
def handleUpdateTodo (todos : List Todo) (id : Nat) (newTitle : String)
    (r : MutResult) (rf : FetchResult) : List Event :=
  .remote (.updateCall (.newTitle newTitle) [("id", id)]) ::
  match r with
  | .ok _ =>
    [.setTodos (todos.map fun t =>
      if t.id = id then { t with title := newTitle } else t)]
  | .error msg => .setError (some msg) :: fetchTodos rf

end App

namespace TodoItem

/-- The transient per-item edit state of `TodoItem.jsx`:
`isEditing` and `editedTitle`. -/
structure ItemState where
  isEditing : Bool
  editedTitle : String
deriving DecidableEq, Repr

/-- Function `handleSave` of `src/components/TodoItem.jsx` (lines 16-21): when the
trimmed edited title is non-empty, invoke `onUpdate(todo.id, editedTitle)`
(note: the UNtrimmed title is passed) and leave edit mode; otherwise do
nothing. Returns the new item state and the `onUpdate` arguments, if
invoked. -/
def handleSave (todoId : Nat) (st : ItemState) :
    ItemState × Option (Nat × String) :=
  if jsTrim st.editedTitle = "" then (st, none)
  else ({ st with isEditing := false }, some (todoId, st.editedTitle))

/-- A rename commit as wired in the App variant: `handleSave` feeding
`App.handleUpdateTodo` when it invokes `onUpdate`. -/
def renameCommit (todos : List Todo) (todoId : Nat) (st : ItemState)
    (r : MutResult) (rf : FetchResult) : ItemState × List Event :=
  match handleSave todoId st with
  | (st2, some (id, t)) => (st2, App.handleUpdateTodo todos id t r rf)
  | (st2, none) => (st2, [])

end TodoItem

namespace Dashboard

/-- Function `fetchTodos` of the Dashboard variant (part_000, lines 34-56): same as
the App variant but every select carries the `user_id` equality filter. -/
def fetchTodos (uid : Nat) (r : FetchResult) : List Event :=
  [.setLoading true, .setError none,
   .remote (.listCall [("user_id", uid)] true)] ++
  (match r with
   | .ok data => [.setTodos (data.getD [])]
   | .error msg => [.setError (some msg)]) ++
  [.setLoading false]

/-- Function `handleAddTodo` of the Dashboard variant (part_000, lines 62-92): the
inserted row additionally carries `user_id: user.id`. -/
def handleAddTodo (uid : Nat) (newTodo : String) (todos : List Todo)
    (r : InsertResult) : List Event :=
  if jsTrim newTodo = "" then []
  else
    [.setError none,
     .remote (.insertCall (jsTrim newTodo) false (some uid))] ++
    match r with
    | .ok data => [.setTodos (data.headD undefinedTodo :: todos), .setNewTodo ""]
    | .error msg => [.setError (some msg)]

/-- Function `handleToggleTodo` of the Dashboard variant (part_000, lines 98-123):
the update is filtered by both `id` and `user_id`. -/
def handleToggleTodo (uid : Nat) (todos : List Todo) (id : Nat)
    (r : MutResult) (rf : FetchResult) : List Event :=
  match todos.find? (fun t => t.id == id) with
  | none => []
  | some todo =>
    .remote (.updateCall (.isDone (!todo.is_done))
      [("id", id), ("user_id", uid)]) ::
    match r with
    | .ok _ =>
      [.setTodos (todos.map fun t =>
        if t.id = id then { t with is_done := !t.is_done } else t)]
    | .error msg => .setError (some msg) :: fetchTodos uid rf

/-- Function `handleDeleteTodo` of the Dashboard variant (part_000, lines 129-148):
the delete is filtered by both `id` and `user_id`. -/
def handleDeleteTodo (uid : Nat) (todos : List Todo) (id : Nat)
    (r : MutResult) (rf : FetchResult) : List Event :=
  .remote (.deleteCall [("id", id), ("user_id", uid)]) ::
  match r with
  | .ok _ => [.setTodos (todos.filter fun t => !(t.id == id))]
  | .error msg => .setError (some msg) :: fetchTodos uid rf

/-- Function `handleUpdateTodo` of the Dashboard variant (part_000, lines 154-173):
the title update is filtered by both `id` and `user_id`. -/
def handleUpdateTodo (uid : Nat) (todos : List Todo) (id : Nat)
    (newTitle : String) (r : MutResult) (rf : FetchResult) : List Event :=
  .remote (.updateCall (.newTitle newTitle) [("id", id), ("user_id", uid)]) ::
  match r with
  | .ok _ =>
    [.setTodos (todos.map fun t =>
      if t.id = id then { t with title := newTitle } else t)]
  | .error msg => .setError (some msg) :: fetchTodos uid rf

end Dashboard

/-- A remote request is owner-scoped for principal `uid` when it carries
the `user_id = uid` equality filter (or, for an insert, the `user_id`
field set to `uid`). -/
def ownerScoped (uid : Nat) : RemoteCall → Bool
  | .listCall fs _ => decide (("user_id", uid) ∈ fs)
  | .insertCall _ _ u => decide (u = some uid)
  | .updateCall _ fs => decide (("user_id", uid) ∈ fs)
  | .deleteCall fs => decide (("user_id", uid) ∈ fs)

/-! ## Concrete example data used by witnesses and counterexamples -/

/-- An example pending todo row. -/
def t1 : Todo :=
  { id := 1, title := "a", is_done := false, created_at := 10, user_id := 7 }

/-- An example completed todo row. -/
def t2 : Todo :=
  { id := 2, title := "b", is_done := true, created_at := 20, user_id := 7 }

/-- An example component state holding `[t1, t2]` with a padded input. -/
def s1 : AppState :=
  { todos := [t1, t2], loading := false, error := none,
    newTodo := " buy milk " }

/-! ## Claims -/

/-- C4: every `List()` on success replaces the local collection with
exactly the server's returned sequence in order (empty when the data is
absent) and clears the error; on failure the collection is unchanged and
the error is recorded; in both cases the trace begins by setting the
loading flag, ends by clearing it, and issues exactly the one list
request. -/
theorem C4_list_replaces_collection (s : AppState)
    (data : Option (List Todo)) (msg : String) :
    (runEvents s (App.fetchTodos (.ok data))).todos = data.getD [] ∧
    (runEvents s (App.fetchTodos (.ok data))).error = none ∧
    (runEvents s (App.fetchTodos (.ok data))).loading = false ∧
    (runEvents s (App.fetchTodos (.error msg))).todos = s.todos ∧
    (runEvents s (App.fetchTodos (.error msg))).error = some msg ∧
    (runEvents s (App.fetchTodos (.error msg))).loading = false ∧
    (∀ r : FetchResult,
      (App.fetchTodos r).head? = some (.setLoading true) ∧
      (App.fetchTodos r).getLast? = some (.setLoading false) ∧
      callsOf (App.fetchTodos r) = [.listCall [] true]) := by
  refine ⟨?_, ?_, ?_, ?_, ?_, ?_, fun r => ?_⟩
  case refine_7 => cases r <;> simp [App.fetchTodos, callsOf]
  all_goals simp [App.fetchTodos, runEvents, applyEvent]

/-- C3: an `Add` whose insert is confirmed with at least one returned row
prepends that row (local length grows by one, prior records keep their
relative order at shifted positions) and clears the input; an `Add` whose
insert fails leaves the collection untouched (it never writes the
collection at all), records the error, and does not clear the input. -/
theorem C3_add_success_and_failure (s : AppState) (row : Todo)
    (rest : List Todo) (msg : String) (ht : jsTrim s.newTodo ≠ "") :
    (runEvents s (App.handleAddTodo s.newTodo s.todos (.ok (row :: rest)))).todos
      = row :: s.todos ∧
    (runEvents s (App.handleAddTodo s.newTodo s.todos (.ok (row :: rest)))).todos.length
      = s.todos.length + 1 ∧
    (runEvents s (App.handleAddTodo s.newTodo s.todos (.ok (row :: rest)))).newTodo
      = "" ∧
    (runEvents s (App.handleAddTodo s.newTodo s.todos (.error msg))).todos
      = s.todos ∧
    (runEvents s (App.handleAddTodo s.newTodo s.todos (.error msg))).error
      = some msg ∧
    (runEvents s (App.handleAddTodo s.newTodo s.todos (.error msg))).newTodo
      = s.newTodo ∧
    todosWrites (App.handleAddTodo s.newTodo s.todos (.error msg)) = [] := by
  simp [App.handleAddTodo, ht, runEvents, applyEvent, todosWrites]

/-- Witness for C3 at a concrete state: adding to `s1` with the server
returning `[t2]` prepends `t2`, and a failing insert leaves the state
intact. -/
theorem C3_add_success_and_failure_witness :
    (runEvents s1 (App.handleAddTodo s1.newTodo s1.todos (.ok [t2]))).todos
      = t2 :: s1.todos ∧
    (runEvents s1 (App.handleAddTodo s1.newTodo s1.todos (.error "down"))).todos
      = s1.todos :=
  ⟨(C3_add_success_and_failure s1 t2 [] "down" (by decide)).1,
   (C3_add_success_and_failure s1 t2 [] "down" (by decide)).2.2.2.1⟩

/-- With pairwise-distinct ids, a successful lookup by id means exactly
one record of the collection carries that id. -/
theorem find_unique_count (l : List Todo) (id : Nat) (todo : Todo)
    (hp : l.Pairwise fun a b => a.id ≠ b.id)
    (h : l.find? (fun t => t.id == id) = some todo) :
    l.countP (fun t => t.id == id) = 1 := by
  induction l with
  | nil => simp at h
  | cons a l ih =>
    rcases List.pairwise_cons.mp hp with ⟨ha, hl⟩
    rw [List.countP_cons]
    by_cases hid : a.id = id
    · have hz : l.countP (fun t => t.id == id) = 0 :=
        List.countP_eq_zero.mpr fun b hb => by
          have hab := ha b hb
          simp only [beq_iff_eq]
          omega
      simp [hz, hid]
    · rw [List.find?_cons_of_neg _ (by simp [hid])] at h
      simp [ih hl h, hid]

/-- C6: a `Toggle(id)` with no matching local record is a no-op issuing
no remote request; a confirmed `Toggle(id)` preserves the collection's
length and, position by position, inverts `is_done` exactly on the
records carrying that id while keeping every other field and every other
record (hence the order) unchanged — and under the collection invariant
of pairwise-distinct ids exactly one record carries the id. -/
theorem C6_toggle_noop_and_frame (s : AppState) (id : Nat) (r : MutResult)
    (rf : FetchResult) :
    (s.todos.find? (fun t => t.id == id) = none →
      App.handleToggleTodo s.todos id r rf = []) ∧
    ((s.todos.find? (fun t => t.id == id)).isSome →
      (runEvents s (App.handleToggleTodo s.todos id (.ok ()) rf)).todos.length
        = s.todos.length ∧
      (∀ i : Nat, ∀ t : Todo, s.todos[i]? = some t →
        ∃ t2,
          (runEvents s (App.handleToggleTodo s.todos id (.ok ()) rf)).todos[i]?
            = some t2 ∧
          t2.id = t.id ∧ t2.title = t.title ∧ t2.created_at = t.created_at ∧
          t2.user_id = t.user_id ∧
          t2.is_done = (if t.id = id then !t.is_done else t.is_done)) ∧
      (s.todos.Pairwise (fun a b => a.id ≠ b.id) →
        s.todos.countP (fun t => t.id == id) = 1)) := by
  constructor
  · intro h
    simp [App.handleToggleTodo, h]
  · intro h
    obtain ⟨todo, h2⟩ := Option.isSome_iff_exists.mp h
    have hfin :
        (runEvents s (App.handleToggleTodo s.todos id (.ok ()) rf)).todos
          = s.todos.map
              (fun t => if t.id = id then { t with is_done := !t.is_done } else t) := by
      simp [App.handleToggleTodo, h2, runEvents, applyEvent]
    refine ⟨by rw [hfin]; simp, ?_,
      fun hp => find_unique_count s.todos id todo hp h2⟩
    intro i t hit
    refine ⟨if t.id = id then { t with is_done := !t.is_done } else t, ?_, ?_⟩
    · rw [hfin, List.getElem?_map, hit]
      rfl
    · by_cases hid : t.id = id <;> simp [hid]

/-- Witness for C6 at a concrete state: toggling id 1 in `s1` keeps the
collection length. -/
theorem C6_toggle_noop_and_frame_witness :
    (runEvents s1 (App.handleToggleTodo s1.todos 1 (.ok ()) (.ok none))).todos.length
      = s1.todos.length :=
  ((C6_toggle_noop_and_frame s1 1 (.ok ()) (.ok none)).2 (by decide)).1

/-- C5: when a `Toggle`, `Delete`, or `Rename` request fails, the trace
records the error and issues exactly one further remote request, a full
list reload — whatever the reload's outcome (so a failing reload is not
retried); a failing reload records its own error. -/
theorem C5_failure_single_reload (s : AppState) (id : Nat) (todo : Todo)
    (newTitle msg : String) (rf : FetchResult)
    (h : s.todos.find? (fun t => t.id == id) = some todo) :
    callsOf (App.handleToggleTodo s.todos id (.error msg) rf) =
      [.updateCall (.isDone (!todo.is_done)) [("id", id)], .listCall [] true] ∧
    Event.setError (some msg) ∈ App.handleToggleTodo s.todos id (.error msg) rf ∧
    callsOf (App.handleDeleteTodo s.todos id (.error msg) rf) =
      [.deleteCall [("id", id)], .listCall [] true] ∧
    Event.setError (some msg) ∈ App.handleDeleteTodo s.todos id (.error msg) rf ∧
    callsOf (App.handleUpdateTodo s.todos id newTitle (.error msg) rf) =
      [.updateCall (.newTitle newTitle) [("id", id)], .listCall [] true] ∧
    Event.setError (some msg) ∈
      App.handleUpdateTodo s.todos id newTitle (.error msg) rf ∧
    (∀ msg2 : String,
      (runEvents s (App.handleToggleTodo s.todos id (.error msg) (.error msg2))).error
        = some msg2) := by
  refine ⟨?_, ?_, ?_, ?_, ?_, ?_, fun msg2 => ?_⟩ <;>
    cases rf <;>
      simp [App.handleToggleTodo, App.handleDeleteTodo, App.handleUpdateTodo,
        App.fetchTodos, h, callsOf, runEvents, applyEvent]

/-- Witness for C5 at a concrete state: a failing toggle of id 1 in `s1`
issues exactly the update and then the one reload. -/
theorem C5_failure_single_reload_witness :
    callsOf (App.handleToggleTodo s1.todos 1 (.error "down") (.ok none)) =
      [.updateCall (.isDone (!t1.is_done)) [("id", 1)], .listCall [] true] :=
  (C5_failure_single_reload s1 1 t1 "x" "down" (.ok none) (by decide)).1

/-- C7: an `Add` whose input is blank after trimming performs no effect
at all (no remote request, no state change, no error), and a rename
commit whose edited title is blank after trimming invokes nothing (no
remote request, collection and edit state untouched, so the original
title is retained). -/
theorem C7_blank_title_local_noop (s : AppState) (todos : List Todo)
    (todoId : Nat) (st : TodoItem.ItemState) (r : InsertResult)
    (mr : MutResult) (rf : FetchResult)
    (hb : jsTrim s.newTodo = "") (hr : jsTrim st.editedTitle = "") :
    App.handleAddTodo s.newTodo s.todos r = [] ∧
    runEvents s (App.handleAddTodo s.newTodo s.todos r) = s ∧
    (TodoItem.renameCommit todos todoId st mr rf).2 = [] ∧
    (TodoItem.renameCommit todos todoId st mr rf).1 = st := by
  simp [App.handleAddTodo, hb, TodoItem.renameCommit, TodoItem.handleSave, hr,
    runEvents]

/-- An example component state whose pending input is whitespace-only. -/
def sBlank : AppState :=
  { todos := [t1], loading := false, error := none, newTodo := "   " }

/-- An example edit state whose edited title is whitespace-only. -/
def editBlank : TodoItem.ItemState :=
  { isEditing := true, editedTitle := "  " }

/-- Witness for C7 at concrete states: a blank add and a blank rename
commit produce empty traces. -/
theorem C7_blank_title_local_noop_witness :
    App.handleAddTodo sBlank.newTodo sBlank.todos (.ok [t2]) = [] ∧
    (TodoItem.renameCommit [t1] 1 editBlank (.ok ()) (.ok none)).2 = [] :=
  ⟨(C7_blank_title_local_noop sBlank [t1] 1 editBlank (.ok [t2]) (.ok ())
      (.ok none) (by decide) (by decide)).1,
   (C7_blank_title_local_noop sBlank [t1] 1 editBlank (.ok [t2]) (.ok ())
      (.ok none) (by decide) (by decide)).2.2.1⟩

/-- C1 counterexample: toggling id 1 on `[t1]` (with `is_done = false`)
while the remote update fails never writes a flipped collection: the only
collection write of the whole trace is the reload's server truth, still
with `is_done = false`. The local state therefore never "briefly shows"
the flipped value, contradicting the claim's failure scenario, and the
flip is not applied in the synchronous step that issues the request. -/
theorem C1_counterexample :
    todosWrites (App.handleToggleTodo [t1] 1 (.error "down") (.ok (some [t1])))
      = [[t1]] ∧
    t1.is_done = false ∧
    ¬ ∃ ts ∈ todosWrites
        (App.handleToggleTodo [t1] 1 (.error "down") (.ok (some [t1]))),
        ∃ t ∈ ts, t.is_done = true := by decide

/-- C1 (amended): the local flip is applied only after the update request
resolves and only when it succeeds. When the update fails, the flipped
value is never written: the only collection writes are those of the
triggered reload (server truth on a successful reload, none on a failing
one). When the update succeeds, the trace is exactly the update request
followed by the single flip write. -/
theorem C1_flip_only_after_confirmation (s : AppState) (id : Nat)
    (todo : Todo) (msg : String) (rf : FetchResult)
    (h : s.todos.find? (fun t => t.id == id) = some todo) :
    todosWrites (App.handleToggleTodo s.todos id (.error msg) rf) =
      (match rf with
       | .ok data => [data.getD []]
       | .error _ => []) ∧
    App.handleToggleTodo s.todos id (.ok ()) rf =
      [.remote (.updateCall (.isDone (!todo.is_done)) [("id", id)]),
       .setTodos (s.todos.map fun t =>
         if t.id = id then { t with is_done := !t.is_done } else t)] := by
  constructor
  · cases rf <;> simp [App.handleToggleTodo, h, App.fetchTodos, todosWrites]
  · simp [App.handleToggleTodo, h]

/-- Witness for the amended C1 at a concrete state: the failing toggle on
`s1` writes only the reload's collection. -/
theorem C1_flip_only_after_confirmation_witness :
    todosWrites (App.handleToggleTodo s1.todos 1 (.error "down") (.ok (some [t1])))
      = [[t1]] :=
  (C1_flip_only_after_confirmation s1 1 t1 "down" (.ok (some [t1]))
    (by decide)).1

/-- The edit state of the C2 counterexample: an edited title padded with
spaces on both sides. -/
def editPadded : TodoItem.ItemState :=
  { isEditing := true, editedTitle := " a " }

/-- C2 counterexample: committing a rename whose edited title is " a "
submits the update with the UNtrimmed title " a ", which differs from its
trim — a whitespace-padded title is sent for persistence, contradicting
"the title sent is trimmed". -/
theorem C2_counterexample :
    RemoteCall.updateCall (.newTitle " a ") [("id", 1)] ∈
      callsOf (TodoItem.renameCommit [t1] 1 editPadded (.ok ()) (.ok none)).2 ∧
    jsTrim " a " ≠ " a " := by decide

/-- C2 (amended): every insert submitted by `Add` carries exactly the
trimmed input title, which is non-empty; every title update submitted by
a rename commit carries a title whose trim is non-empty (a blank title is
never submitted), but that title is the edited text sent untrimmed, so a
whitespace-padded title can be persisted. -/
theorem C2_titles_sent (newTodo : String) (todos : List Todo)
    (r : InsertResult) (todoId : Nat) (st : TodoItem.ItemState)
    (mr : MutResult) (rf : FetchResult) :
    (∀ t d u, RemoteCall.insertCall t d u ∈
        callsOf (App.handleAddTodo newTodo todos r) →
        t = jsTrim newTodo ∧ jsTrim newTodo ≠ "") ∧
    (∀ t fs, RemoteCall.updateCall (.newTitle t) fs ∈
        callsOf (TodoItem.renameCommit todos todoId st mr rf).2 →
        t = st.editedTitle ∧ jsTrim t ≠ "") := by
  constructor
  · intro t d u hmem
    by_cases hb : jsTrim newTodo = ""
    · simp [App.handleAddTodo, hb, callsOf] at hmem
    · cases r <;> simp [App.handleAddTodo, hb, callsOf] at hmem <;>
        exact ⟨hmem.1, hb⟩
  · intro t fs hmem
    by_cases hr : jsTrim st.editedTitle = ""
    · simp [TodoItem.renameCommit, TodoItem.handleSave, hr, callsOf] at hmem
    · have hmem2 : RemoteCall.updateCall (.newTitle t) fs ∈
          callsOf (App.handleUpdateTodo todos todoId st.editedTitle mr rf) := by
        simpa [TodoItem.renameCommit, TodoItem.handleSave, hr] using hmem
      have ht : t = st.editedTitle := by
        cases mr <;> cases rf <;>
          simp [App.handleUpdateTodo, App.fetchTodos, callsOf] at hmem2 <;>
          tauto
      exact ⟨ht, ht ▸ hr⟩

/-- Witness for the amended C2 at concrete inputs: the insert issued for
the padded input " a " carries the trimmed non-empty title. -/
theorem C2_titles_sent_witness :
    ("a" : String) = jsTrim " a " ∧ jsTrim " a " ≠ "" :=
  (C2_titles_sent " a " [] (.ok []) 1 editPadded (.ok ()) (.ok none)).1
    "a" false none (by decide)

/-- C9: when the trimmed input is non-empty and the confirmed insert
returns at least one row, the `data[0]` read is well-defined: it yields
the genuine first returned row (never the `undefined` sentinel), and the
resulting collection is exactly that row prepended to the previous
collection. -/
theorem C9_add_head_well_defined (newTodo : String) (todos data : List Todo)
    (ht : jsTrim newTodo ≠ "") (hd : data ≠ []) :
    ∃ row, data.head? = some row ∧ row ∈ data ∧
      data.headD undefinedTodo = row ∧
      ∀ s : AppState,
        (runEvents s (App.handleAddTodo newTodo todos (.ok data))).todos
          = row :: todos := by
  cases data with
  | nil => exact absurd rfl hd
  | cons a l =>
    exact ⟨a, rfl, List.mem_cons_self a l, rfl,
      fun s => by simp [App.handleAddTodo, ht, runEvents, applyEvent]⟩

/-- Witness for C9 at concrete inputs: inserting with server response
`[t2]` prepends the genuine row `t2`. -/
theorem C9_add_head_well_defined_witness :
    ∃ row, ([t2] : List Todo).head? = some row ∧ row ∈ [t2] ∧
      ([t2] : List Todo).headD undefinedTodo = row ∧
      ∀ s : AppState,
        (runEvents s (App.handleAddTodo " b " [] (.ok [t2]))).todos
          = row :: [] :=
  C9_add_head_well_defined " b " [] [t2] (by decide) (by decide)

/-- C10: `Delete(id)` and `Rename(id, newTitle)` issue their remote
request even when no local record carries the id (there is no local
existence check, unlike `Toggle`), and on confirmation the local
collection is left completely unchanged: the removal filter and the
title-replacing map act as the identity. -/
theorem C10_absent_id_delete_rename (s : AppState) (id : Nat)
    (newTitle : String) (r : MutResult) (rf : FetchResult)
    (h : ∀ t ∈ s.todos, t.id ≠ id) :
    RemoteCall.deleteCall [("id", id)] ∈
      callsOf (App.handleDeleteTodo s.todos id r rf) ∧
    RemoteCall.updateCall (.newTitle newTitle) [("id", id)] ∈
      callsOf (App.handleUpdateTodo s.todos id newTitle r rf) ∧
    (runEvents s (App.handleDeleteTodo s.todos id (.ok ()) rf)).todos
      = s.todos ∧
    (runEvents s (App.handleUpdateTodo s.todos id newTitle (.ok ()) rf)).todos
      = s.todos := by
  refine ⟨?_, ?_, ?_, ?_⟩
  · cases r <;> simp [App.handleDeleteTodo, callsOf]
  · cases r <;> simp [App.handleUpdateTodo, callsOf]
  · have hfil : s.todos.filter (fun t => !(t.id == id)) = s.todos :=
      List.filter_eq_self.mpr fun a ha => by simp [h a ha]
    simp [App.handleDeleteTodo, runEvents, applyEvent, hfil]
  · have hmap :
        (s.todos.map fun t =>
          if t.id = id then { t with title := newTitle } else t) = s.todos := by
      conv_rhs => rw [← List.map_id s.todos]
      exact List.map_congr_left fun a ha => by simp [h a ha]
    simp [App.handleUpdateTodo, runEvents, applyEvent, hmap]

/-- Witness for C10 at a concrete state: deleting and renaming the absent
id 3 in `s1` each issue their request and leave the collection as it
was. -/
theorem C10_absent_id_delete_rename_witness :
    (runEvents s1 (App.handleDeleteTodo s1.todos 3 (.ok ()) (.ok none))).todos
      = s1.todos ∧
    (runEvents s1 (App.handleUpdateTodo s1.todos 3 "c" (.ok ()) (.ok none))).todos
      = s1.todos :=
  ⟨(C10_absent_id_delete_rename s1 3 "c" (.ok ()) (.ok none) (by decide)).2.2.1,
   (C10_absent_id_delete_rename s1 3 "c" (.ok ()) (.ok none) (by decide)).2.2.2⟩

/-- C8: in the Dashboard variant every remote request — the list, the
insert, the id-scoped update and delete, and the reloads triggered by
failures — carries the acting principal's owner identifier (a `user_id`
equality filter, or the `user_id` field of the inserted row), and the
update and delete requests carry the primary-key filter alongside it. -/
theorem C8_dashboard_owner_scoped (uid : Nat) (newTodo newTitle : String)
    (todos : List Todo) (id : Nat) (fr : FetchResult) (ir : InsertResult)
    (mr : MutResult) (rf : FetchResult) :
    (∀ c ∈ callsOf (Dashboard.fetchTodos uid fr), ownerScoped uid c = true) ∧
    (∀ c ∈ callsOf (Dashboard.handleAddTodo uid newTodo todos ir),
      ownerScoped uid c = true) ∧
    (∀ c ∈ callsOf (Dashboard.handleToggleTodo uid todos id mr rf),
      ownerScoped uid c = true) ∧
    (∀ c ∈ callsOf (Dashboard.handleDeleteTodo uid todos id mr rf),
      ownerScoped uid c = true) ∧
    (∀ c ∈ callsOf (Dashboard.handleUpdateTodo uid todos id newTitle mr rf),
      ownerScoped uid c = true) ∧
    (∀ p fs, RemoteCall.updateCall p fs ∈
        callsOf (Dashboard.handleToggleTodo uid todos id mr rf) →
        ("id", id) ∈ fs) ∧
    (∀ fs, RemoteCall.deleteCall fs ∈
        callsOf (Dashboard.handleDeleteTodo uid todos id mr rf) →
        ("id", id) ∈ fs) ∧
    (∀ p fs, RemoteCall.updateCall p fs ∈
        callsOf (Dashboard.handleUpdateTodo uid todos id newTitle mr rf) →
        ("id", id) ∈ fs) := by
  have hfetch : ∀ r : FetchResult, callsOf (Dashboard.fetchTodos uid r)
      = [.listCall [("user_id", uid)] true] := by
    intro r
    cases r <;> simp [Dashboard.fetchTodos, callsOf]
  refine ⟨?_, ?_, ?_, ?_, ?_, ?_, ?_, ?_⟩
  · intro c hc
    rw [hfetch] at hc
    simp at hc
    subst hc
    simp [ownerScoped]
  · intro c hc
    by_cases hb : jsTrim newTodo = ""
    · simp [Dashboard.handleAddTodo, hb, callsOf] at hc
    · cases ir <;> simp [Dashboard.handleAddTodo, hb, callsOf] at hc <;>
        (subst hc; simp [ownerScoped])
  · intro c hc
    rcases hfind : todos.find? (fun t => t.id == id) with _ | todo <;>
      cases mr <;> cases rf <;>
        simp [Dashboard.handleToggleTodo, hfind, Dashboard.fetchTodos,
          callsOf] at hc <;>
      rcases hc with rfl | rfl <;> simp [ownerScoped]
  · intro c hc
    cases mr <;> cases rf <;>
      simp [Dashboard.handleDeleteTodo, Dashboard.fetchTodos, callsOf] at hc <;>
      rcases hc with rfl | rfl <;> simp [ownerScoped]
  · intro c hc
    cases mr <;> cases rf <;>
      simp [Dashboard.handleUpdateTodo, Dashboard.fetchTodos, callsOf] at hc <;>
      rcases hc with rfl | rfl <;> simp [ownerScoped]
  · intro p fs hc
    rcases hfind : todos.find? (fun t => t.id == id) with _ | todo <;>
      cases mr <;> cases rf <;>
        simp [Dashboard.handleToggleTodo, hfind, Dashboard.fetchTodos,
          callsOf] at hc <;>
      simp [hc.2]
  · intro fs hc
    cases mr <;> cases rf <;>
      simp [Dashboard.handleDeleteTodo, Dashboard.fetchTodos, callsOf] at hc <;>
      simp [hc]
  · intro p fs hc
    cases mr <;> cases rf <;>
      simp [Dashboard.handleUpdateTodo, Dashboard.fetchTodos, callsOf] at hc <;>
      simp [hc.2]

/-- Witness for C8 at concrete inputs: the Dashboard list request for
principal 7 carries the owner filter. -/
theorem C8_dashboard_owner_scoped_witness :
    ownerScoped 7 (RemoteCall.listCall [("user_id", 7)] true) = true :=
  (C8_dashboard_owner_scoped 7 "x" "y" [] 1 (.ok none) (.ok []) (.ok ())
      (.ok none)).1
    (RemoteCall.listCall [("user_id", 7)] true) (by decide)
